import Mathlib

/-
Verification of the sqltap-profiler query-execution profiling engine.
The repository ships only the usage example (examples/profiling_example.py);
the engine itself (module sqltap.profiling) is not among the sources, so every
component below is modelled from the specification (spec.md sections 2-7) and
the claims are settled against that model.
-/

namespace Sqltap

/-- Modelled from the spec: the verb enum of section 3 (SELECT, INSERT, UPDATE,
DELETE, OTHER); the module sqltap/profiling.py is missing from the sources. -/
inductive Verb
| select
| insert
| update
| delete
| other
deriving DecidableEq, Repr

/-- Modelled from the spec: a transient QueryEvent produced by the EventHook
(section 3), with opaque parameters and timing boundaries. Timestamps and
durations are modelled as rationals. -/
structure QueryEvent where
  sql_text : String
  parameters : String
  started_at : ℚ
  ended_at : ℚ
deriving DecidableEq, Repr

/-- Modelled from the spec: derived duration = ended_at - started_at. -/
def QueryEvent.duration (e : QueryEvent) : ℚ :=
  e.ended_at - e.started_at

/-- Modelled from the spec: an event is well formed when its timing is not
reversed; record fails with InvalidEvent otherwise (sections 3 and 7). -/
def QueryEvent.valid (e : QueryEvent) : Prop :=
  e.started_at ≤ e.ended_at

instance (e : QueryEvent) : Decidable e.valid := by
  unfold QueryEvent.valid
  infer_instance

/-- Whitespace characters separating SQL tokens. -/
def isWs (c : Char) : Bool :=
  c == ' ' || c == '\t' || c == '\n' || c == '\r'

/-- Splits a character list into maximal whitespace-free tokens. -/
def tokenize (cs : List Char) : List (List Char) :=
  (cs.foldr
    (fun c acc =>
      if isWs c then [] :: acc
      else
        match acc with
        | [] => [[c]]
        | t :: ts => (c :: t) :: ts)
    [[]]).filter (fun t => !t.isEmpty)

/-- Tests whether a token is a numeric literal. -/
def isNumTok (t : List Char) : Bool :=
  !t.isEmpty && t.all Char.isDigit

/-- Tests whether a token is a quoted string literal. -/
def isStrTok (t : List Char) : Bool :=
  match t with
  | c :: _ => c == '\''
  | [] => false

/-- Modelled from the spec: canonicalization of a single token for the
StatementNormalizer (section 4.1) - literal values collapse to a placeholder,
other tokens are case-folded. -/
def normTok (t : List Char) : List Char :=
  if isNumTok t || isStrTok t then ['?'] else t.map Char.toUpper

/-- Joins tokens back with single spaces. -/
def joinTokens (ts : List (List Char)) : List Char :=
  (ts.intersperse [' ']).flatten

/-- Modelled from the spec: StatementNormalizer.normalize (section 4.1) -
deterministic, case/whitespace/literal-insensitive grouping key; empty or
malformed SQL normalizes to itself (never rejected). -/
def normalize (s : String) : String :=
  String.mk (joinTokens ((tokenize s.data).map normTok))

/-- Modelled from the spec: StatementNormalizer.classify (section 4.1) -
matches the first significant token against the known verb set; unmatched
tokens (and empty SQL) classify as OTHER. -/
def classify (s : String) : Verb :=
  match (tokenize s.data).map (fun t => t.map Char.toUpper) with
  | [] => Verb.other
  | t :: _ =>
    if t = "SELECT".data then Verb.select
    else if t = "INSERT".data then Verb.insert
    else if t = "UPDATE".data then Verb.update
    else if t = "DELETE".data then Verb.delete
    else Verb.other

/-- Modelled from the spec: the error taxonomy of section 7. -/
inductive ProfError
| DuplicateScope
| UnknownScope
| AccumulatorClosed
| SessionAlreadyClosed
| InvalidEvent
deriving DecidableEq, Repr

/-- Modelled from the spec: QueryGroup (section 3) - key, verb, sample text
(first observed raw text) and the append-only duration sequence in execution
order. -/
structure QueryGroup where
  key : String
  verb : Verb
  sql_text : String
  durations : List ℚ
deriving DecidableEq, Repr

/-- Modelled from the spec: query_count is derived as length(durations). -/
def QueryGroup.query_count (g : QueryGroup) : Nat :=
  g.durations.length

/-- Modelled from the spec: total_time of a group is the sum of its
durations. -/
def QueryGroup.total_time (g : QueryGroup) : ℚ :=
  g.durations.sum

/-- Modelled from the spec: mean_time of a group, 0 on an empty group. -/
def QueryGroup.mean_time (g : QueryGroup) : ℚ :=
  if g.durations.length = 0 then 0 else g.total_time / g.query_count

/-- Sorted copy of a duration sequence, ascending. -/
def sortQ (l : List ℚ) : List ℚ :=
  l.insertionSort (fun a b => a ≤ b)

/-- Modelled from the spec: the median policy of section 4.3/4.4 - sort a copy
of the durations; odd length takes the middle element, even length averages
the two middle values; empty input yields 0. -/
def medianList (l : List ℚ) : ℚ :=
  if l.length = 0 then 0
  else if l.length % 2 = 1 then (sortQ l).getD (l.length / 2) 0
  else ((sortQ l).getD (l.length / 2 - 1) 0 + (sortQ l).getD (l.length / 2) 0) / 2

/-- Modelled from the spec: median_time of a group, recomputed from the stored
duration sequence at read time. -/
def QueryGroup.median_time (g : QueryGroup) : ℚ :=
  medianList g.durations

/-- Modelled from the spec: StatisticsAccumulator (sections 3 and 4.4) -
groups in insertion order of first occurrence, with incrementally maintained
total_query_count and total_time and a closed flag set by freeze. -/
structure StatisticsAccumulator where
  groups : List QueryGroup
  total_query_count : Nat
  total_time : ℚ
  closed : Bool
deriving DecidableEq, Repr

/-- Fresh accumulator created when a ProfilingSession opens. -/
def emptyAcc : StatisticsAccumulator :=
  { groups := [], total_query_count := 0, total_time := 0, closed := false }

/-- Appends a duration to the group with the given key, or creates a fresh
group at the end (insertion order of first occurrence) when no group has the
key. -/
def addToGroups (key : String) (v : Verb) (txt : String) (d : ℚ) :
    List QueryGroup → List QueryGroup
  | [] => [{ key := key, verb := v, sql_text := txt, durations := [d] }]
  | g :: gs =>
    if g.key = key then { g with durations := g.durations ++ [d] } :: gs
    else g :: addToGroups key v txt d gs

/-- One successful record step: normalize, look up or create the QueryGroup,
append the duration, bump the running totals. -/
def recStep (acc : StatisticsAccumulator) (e : QueryEvent) : StatisticsAccumulator :=
  { groups := addToGroups (normalize e.sql_text) (classify e.sql_text) e.sql_text
      e.duration acc.groups,
    total_query_count := acc.total_query_count + 1,
    total_time := acc.total_time + e.duration,
    closed := false }

/-- Modelled from the spec: StatisticsAccumulator.record (section 4.4) - fails
with AccumulatorClosed after freeze, with InvalidEvent on reversed timing, and
otherwise performs one record step. -/
def StatisticsAccumulator.record (acc : StatisticsAccumulator) (e : QueryEvent) :
    Except ProfError StatisticsAccumulator :=
  if acc.closed then Except.error ProfError.AccumulatorClosed
  else if e.ended_at < e.started_at then Except.error ProfError.InvalidEvent
  else Except.ok (recStep acc e)

/-- Records a whole list of events in order, stopping at the first error. -/
def recordAll (acc : StatisticsAccumulator) : List QueryEvent →
    Except ProfError StatisticsAccumulator
  | [] => Except.ok acc
  | e :: es =>
    match acc.record e with
    | Except.error err => Except.error err
    | Except.ok acc' => recordAll acc' es

/-- Modelled from the spec: the immutable Stats report (sections 3 and 4.5), a
read-only projection of a finalized accumulator. -/
structure Stats where
  groups : List QueryGroup
  query_count : Nat
  total_time : ℚ
deriving DecidableEq, Repr

/-- Modelled from the spec: freeze (section 4.4) - produces the immutable
snapshot and closes the accumulator so later record calls fail. -/
def StatisticsAccumulator.freeze (acc : StatisticsAccumulator) :
    StatisticsAccumulator × Stats :=
  ({ acc with closed := true },
   { groups := acc.groups, query_count := acc.total_query_count,
     total_time := acc.total_time })

/-- Modelled from the spec: unique_queries = number of distinct QueryGroups. -/
def Stats.unique_queries (s : Stats) : Nat :=
  s.groups.length

/-- Modelled from the spec: mean_time = total_time / query_count when
query_count > 0, and 0 when query_count = 0. -/
def Stats.mean_time (s : Stats) : ℚ :=
  if s.query_count = 0 then 0 else s.total_time / s.query_count

/-- All individual durations across all groups, in group order. -/
def Stats.allDurations (s : Stats) : List ℚ :=
  (s.groups.map (fun g => g.durations)).flatten

/-- Modelled from the spec: median_time over ALL individual durations across
all groups, not per-group (section 4.5). -/
def Stats.median_time (s : Stats) : ℚ :=
  medianList s.allDurations

/-- Modelled from the spec: the report ordering of section 4.5 - a comes no
later than b when it has strictly larger total_time, or equal total_time and
at least as large query_count. -/
def groupBefore (a b : QueryGroup) : Prop :=
  b.total_time < a.total_time ∨
    (a.total_time = b.total_time ∧ b.query_count ≤ a.query_count)

instance : DecidableRel groupBefore := by
  unfold groupBefore
  infer_instance

/-- Modelled from the spec: get_queries_by_type (section 4.5) - only groups
whose classified verb matches, ordered by descending total_time with ties by
descending query_count, the remaining ties keeping insertion order of first
occurrence (a stable sort over the insertion-ordered group list). -/
def Stats.get_queries_by_type (s : Stats) (v : Verb) : List QueryGroup :=
  (s.groups.filter (fun g => g.verb == v)).insertionSort groupBefore

/-- Picks the group with the highest total_time, keeping the earlier group on
ties. -/
def slowestAux : QueryGroup → List QueryGroup → QueryGroup
  | g, [] => g
  | g, g' :: gs =>
    if g.total_time < g'.total_time then slowestAux g' gs else slowestAux g gs

/-- Modelled from the spec: get_slowest_query (section 4.5) - the group with
the highest total_time across all verbs, none if no queries were recorded. -/
def Stats.get_slowest_query (s : Stats) : Option QueryGroup :=
  match s.groups with
  | [] => none
  | g :: gs => some (slowestAux g gs)

/-- Prints a verb for the summary report. -/
def Verb.name : Verb → String
  | Verb.select => "SELECT"
  | Verb.insert => "INSERT"
  | Verb.update => "UPDATE"
  | Verb.delete => "DELETE"
  | Verb.other => "OTHER"

/-- One per-verb breakdown line of the summary. -/
def Stats.verbLine (s : Stats) (v : Verb) : String :=
  Verb.name v ++ ": " ++
    toString (s.groups.filter (fun g => g.verb == v)).length ++ " unique, " ++
    toString ((s.groups.filter (fun g => g.verb == v)).map
      (fun g => g.query_count)).sum ++ " executions"

/-- Modelled from the spec: summary (section 4.5) - human-readable text that
must include total query count, unique query count, total time, and a
per-verb breakdown. -/
def Stats.summary (s : Stats) : String :=
  "Total queries: " ++ toString s.query_count ++ "\n" ++
  "Unique queries: " ++ toString s.unique_queries ++ "\n" ++
  "Total time: " ++ toString s.total_time ++ "\n" ++
  s.verbLine Verb.select ++ "\n" ++
  s.verbLine Verb.insert ++ "\n" ++
  s.verbLine Verb.update ++ "\n" ++
  s.verbLine Verb.delete ++ "\n" ++
  s.verbLine Verb.other

/-- Modelled from the spec: ScopeRegistry (section 4.3) - process-wide mapping
from scope-id to its active accumulator. -/
abbrev ScopeRegistry := List (String × StatisticsAccumulator)

/-- Modelled from the spec: activate (section 4.3) - registers a fresh
accumulator, failing with DuplicateScope if the scope-id is already active. -/
def activate (reg : ScopeRegistry) (sid : String) : Except ProfError ScopeRegistry :=
  if reg.any (fun p => p.1 == sid) then Except.error ProfError.DuplicateScope
  else Except.ok (reg ++ [(sid, emptyAcc)])

/-- Modelled from the spec: deactivate (section 4.3) - removes and returns the
accumulator for finalization, failing with UnknownScope if absent. -/
def deactivate : ScopeRegistry → String →
    Except ProfError (ScopeRegistry × StatisticsAccumulator)
  | [], _ => Except.error ProfError.UnknownScope
  | p :: ps, sid =>
    if p.1 = sid then Except.ok (ps, p.2)
    else
      match deactivate ps sid with
      | Except.error err => Except.error err
      | Except.ok (ps', acc) => Except.ok (p :: ps', acc)

/-- Modelled from the spec: EventHook fan-out (sections 3 and 4.2) - a
completed QueryEvent is forwarded to every currently active accumulator in the
registry, not just the innermost scope. -/
def deliver : ScopeRegistry → QueryEvent → Except ProfError ScopeRegistry
  | [], _ => Except.ok []
  | p :: ps, e =>
    match p.2.record e with
    | Except.error err => Except.error err
    | Except.ok acc' =>
      match deliver ps e with
      | Except.error err => Except.error err
      | Except.ok ps' => Except.ok ((p.1, acc') :: ps')

/-- Delivers a list of events in order through the registry. -/
def deliverAll (reg : ScopeRegistry) : List QueryEvent → Except ProfError ScopeRegistry
  | [] => Except.ok reg
  | e :: es =>
    match deliver reg e with
    | Except.error err => Except.error err
    | Except.ok reg' => deliverAll reg' es

/-- Frozen Stats obtained from recording a list of events into a fresh
accumulator and freezing it at close time. -/
def frozenStats (es : List QueryEvent) : Stats :=
  ((es.foldl recStep emptyAcc).freeze).2

/-- Modelled from the spec: the sqltap_profiler context manager (section 4.6
and the example usage) - enter activates a fresh scope, the profiled block's
events are delivered through the registry, exit deactivates the scope and
freezes the accumulator; the returned Stats is the object bound by the as
clause, on which the caller performs all reads after the block. -/
def sqltap_profiler (label : String) (events : List QueryEvent) :
    Except ProfError Stats :=
  match activate [] label with
  | Except.error err => Except.error err
  | Except.ok reg =>
    match deliverAll reg events with
    | Except.error err => Except.error err
    | Except.ok reg' =>
      match deactivate reg' label with
      | Except.error err => Except.error err
      | Except.ok (_, acc) => Except.ok (acc.freeze).2

/-- Modelled from the spec: a profiled block that executed the given events
and then possibly raised (section 4.6, section 7) - exit still runs on the
error path: the scope is deactivated, the accumulator frozen, and the block
error is returned unchanged alongside the Stats. -/
def runProfiledBlock (sid : String) (events : List QueryEvent)
    (blockErr : Option String) :
    Except ProfError (ScopeRegistry × Stats × Option String) :=
  match activate [] sid with
  | Except.error err => Except.error err
  | Except.ok reg =>
    match deliverAll reg events with
    | Except.error err => Except.error err
    | Except.ok reg' =>
      match deactivate reg' sid with
      | Except.error err => Except.error err
      | Except.ok (reg'', acc) => Except.ok (reg'', (acc.freeze).2, blockErr)

/-- Modelled from the spec: close a scope after some events, keep its frozen
Stats, then let the workload continue with further events delivered through
the registry (section 4.5 and section 8) - the later events must not appear
in the frozen Stats. -/
def closeThenContinue (sid : String) (es1 es2 : List QueryEvent) :
    Except ProfError (Stats × ScopeRegistry) :=
  match activate [] sid with
  | Except.error err => Except.error err
  | Except.ok reg =>
    match deliverAll reg es1 with
    | Except.error err => Except.error err
    | Except.ok reg' =>
      match deactivate reg' sid with
      | Except.error err => Except.error err
      | Except.ok (reg'', acc) =>
        match deliverAll reg'' es2 with
        | Except.error err => Except.error err
        | Except.ok regFinal => Except.ok ((acc.freeze).2, regFinal)

/- Helper lemmas about the record pipeline. -/

theorem recStep_closed (acc : StatisticsAccumulator) (e : QueryEvent) :
    (recStep acc e).closed = false :=
  rfl

theorem recStep_groups (acc : StatisticsAccumulator) (e : QueryEvent) :
    (recStep acc e).groups
      = addToGroups (normalize e.sql_text) (classify e.sql_text) e.sql_text
          e.duration acc.groups :=
  rfl

theorem recStep_count (acc : StatisticsAccumulator) (e : QueryEvent) :
    (recStep acc e).total_query_count = acc.total_query_count + 1 :=
  rfl

theorem recStep_time (acc : StatisticsAccumulator) (e : QueryEvent) :
    (recStep acc e).total_time = acc.total_time + e.duration :=
  rfl

theorem record_ok (acc : StatisticsAccumulator) (e : QueryEvent)
    (hopen : acc.closed = false) (hval : e.valid) :
    acc.record e = Except.ok (recStep acc e) := by
  have hnlt : ¬ e.ended_at < e.started_at := not_lt.mpr hval
  simp [StatisticsAccumulator.record, hopen, hnlt]

theorem recordAll_ok (es : List QueryEvent) (acc : StatisticsAccumulator)
    (hopen : acc.closed = false) (hval : ∀ e ∈ es, e.valid) :
    recordAll acc es = Except.ok (es.foldl recStep acc) := by
  induction es generalizing acc with
  | nil => rfl
  | cons e es ih =>
    rw [recordAll, record_ok acc e hopen (hval e (by simp))]
    exact ih (recStep acc e) rfl (fun x hx => hval x (by simp [hx]))

theorem foldl_recStep_count (es : List QueryEvent) (acc : StatisticsAccumulator) :
    (es.foldl recStep acc).total_query_count = acc.total_query_count + es.length := by
  induction es generalizing acc with
  | nil => simp
  | cons e es ih =>
    rw [List.foldl_cons, ih, recStep_count, List.length_cons]
    omega

theorem foldl_recStep_total_time (es : List QueryEvent) (acc : StatisticsAccumulator) :
    (es.foldl recStep acc).total_time
      = acc.total_time + (es.map QueryEvent.duration).sum := by
  induction es generalizing acc with
  | nil => simp
  | cons e es ih =>
    rw [List.foldl_cons, ih, recStep_time, List.map_cons, List.sum_cons]
    ring

theorem addToGroups_sum (k : String) (v : Verb) (t : String) (d : ℚ)
    (gs : List QueryGroup) :
    ((addToGroups k v t d gs).map (fun g => g.durations.sum)).sum
      = (gs.map (fun g => g.durations.sum)).sum + d := by
  induction gs with
  | nil => simp [addToGroups]
  | cons g gs ih =>
    by_cases h : g.key = k
    · simp only [addToGroups, if_pos h, List.map_cons, List.sum_cons,
        List.sum_append, List.sum_cons, List.sum_nil]
      ring
    · simp only [addToGroups, if_neg h, List.map_cons, List.sum_cons, ih]
      ring

theorem foldl_recStep_groups_sum (es : List QueryEvent) (acc : StatisticsAccumulator) :
    ((es.foldl recStep acc).groups.map (fun g => g.durations.sum)).sum
      = (acc.groups.map (fun g => g.durations.sum)).sum
        + (es.map QueryEvent.duration).sum := by
  induction es generalizing acc with
  | nil => simp
  | cons e es ih =>
    rw [List.foldl_cons, ih, recStep_groups, addToGroups_sum, List.map_cons,
      List.sum_cons]
    ring

instance : IsTotal QueryGroup groupBefore := by
  constructor
  intro a b
  unfold groupBefore
  rcases lt_trichotomy a.total_time b.total_time with h | h | h
  · right
    exact Or.inl h
  · rcases le_total b.query_count a.query_count with hc | hc
    · exact Or.inl (Or.inr ⟨h, hc⟩)
    · exact Or.inr (Or.inr ⟨h.symm, hc⟩)
  · exact Or.inl (Or.inl h)

instance : IsTrans QueryGroup groupBefore := by
  constructor
  intro a b c hab hbc
  unfold groupBefore at hab hbc ⊢
  rcases hab with h1 | ⟨h1, h1c⟩
  · rcases hbc with h2 | ⟨h2, h2c⟩
    · exact Or.inl (h2.trans h1)
    · refine Or.inl ?_
      rw [← h2]
      exact h1
  · rcases hbc with h2 | ⟨h2, h2c⟩
    · refine Or.inl ?_
      rw [h1]
      exact h2
    · exact Or.inr ⟨h1.trans h2, h2c.trans h1c⟩

theorem sortQ_sorted (l : List ℚ) : (sortQ l).Sorted (fun a b => a ≤ b) :=
  List.sorted_insertionSort _ l

theorem sortQ_perm (l : List ℚ) : (sortQ l).Perm l :=
  List.perm_insertionSort _ l

theorem sortQ_eq_of_perm {l l' : List ℚ} (h : l.Perm l') : sortQ l = sortQ l' := by
  apply List.eq_of_perm_of_sorted ((sortQ_perm l).trans (h.trans (sortQ_perm l').symm))
    (sortQ_sorted l) (sortQ_sorted l')

theorem medianList_eq_of_perm {l l' : List ℚ} (h : l.Perm l') :
    medianList l = medianList l' := by
  unfold medianList
  rw [h.length_eq, sortQ_eq_of_perm h]

theorem slowestAux_mem (g : QueryGroup) (gs : List QueryGroup) :
    slowestAux g gs ∈ g :: gs := by
  induction gs generalizing g with
  | nil => simp [slowestAux]
  | cons g' gs ih =>
    rw [slowestAux]
    by_cases h : g.total_time < g'.total_time
    · rw [if_pos h]
      have hm := ih g'
      simp only [List.mem_cons] at hm ⊢
      tauto
    · rw [if_neg h]
      have hm := ih g
      simp only [List.mem_cons] at hm ⊢
      tauto

theorem slowestAux_le (g : QueryGroup) (gs : List QueryGroup) :
    ∀ x ∈ g :: gs, x.total_time ≤ (slowestAux g gs).total_time := by
  induction gs generalizing g with
  | nil =>
    intro x hx
    simp only [List.mem_cons, List.not_mem_nil, or_false] at hx
    subst hx
    simp [slowestAux]
  | cons g' gs ih =>
    intro x hx
    rw [slowestAux]
    simp only [List.mem_cons] at hx
    by_cases h : g.total_time < g'.total_time
    · rw [if_pos h]
      rcases hx with hx | hx | hx
      · rw [hx]
        exact (le_of_lt h).trans (ih g' g' (by simp))
      · rw [hx]
        exact ih g' g' (by simp)
      · exact ih g' x (by simp [hx])
    · rw [if_neg h]
      rcases hx with hx | hx | hx
      · rw [hx]
        exact ih g g (by simp)
      · rw [hx]
        exact (not_lt.mp h).trans (ih g g (by simp))
      · exact ih g x (by simp [hx])

/- Helper lemmas about the registry and session pipeline. -/

theorem activate_nil (sid : String) : activate [] sid = Except.ok [(sid, emptyAcc)] := by
  simp [activate]

theorem deliver_nil (e : QueryEvent) : deliver [] e = Except.ok [] :=
  rfl

theorem deliverAll_nil_reg (es : List QueryEvent) :
    deliverAll [] es = Except.ok [] := by
  induction es with
  | nil => rfl
  | cons e es ih =>
    rw [deliverAll, deliver_nil]
    exact ih

theorem deliver_fan (reg : ScopeRegistry) (e : QueryEvent) (hval : e.valid)
    (hopen : ∀ p ∈ reg, p.2.closed = false) :
    deliver reg e = Except.ok (reg.map (fun p => (p.1, recStep p.2 e))) := by
  induction reg with
  | nil => rfl
  | cons p ps ih =>
    rw [deliver, record_ok p.2 e (hopen p (by simp)) hval,
      ih (fun q hq => hopen q (by simp [hq]))]
    rfl

theorem deliver_single (sid : String) (acc : StatisticsAccumulator) (e : QueryEvent)
    (hopen : acc.closed = false) (hval : e.valid) :
    deliver [(sid, acc)] e = Except.ok [(sid, recStep acc e)] :=
  deliver_fan [(sid, acc)] e hval (by simpa using hopen)

theorem deliverAll_single (sid : String) (acc : StatisticsAccumulator)
    (es : List QueryEvent) (hopen : acc.closed = false)
    (hval : ∀ e ∈ es, e.valid) :
    deliverAll [(sid, acc)] es = Except.ok [(sid, es.foldl recStep acc)] := by
  induction es generalizing acc with
  | nil => rfl
  | cons e es ih =>
    rw [deliverAll, deliver_single sid acc e hopen (hval e (by simp))]
    exact ih (recStep acc e) rfl (fun x hx => hval x (by simp [hx]))

theorem deactivate_single (sid : String) (acc : StatisticsAccumulator) :
    deactivate [(sid, acc)] sid = Except.ok ([], acc) := by
  simp [deactivate]

theorem addToGroups_singleton_same (k : String) (v : Verb) (t : String) (d : ℚ)
    (g : QueryGroup) (hk : g.key = k) :
    addToGroups k v t d [g] = [{ g with durations := g.durations ++ [d] }] := by
  simp [addToGroups, hk]

theorem foldl_single_key (k : String) (vrb : Verb) (es : List QueryEvent) :
    ∀ (acc : StatisticsAccumulator) (g : QueryGroup),
      acc.groups = [g] → g.key = k → g.verb = vrb →
      (∀ e ∈ es, normalize e.sql_text = k) →
      ∃ g', (es.foldl recStep acc).groups = [g'] ∧ g'.key = k ∧ g'.verb = vrb ∧
        g'.durations.length = g.durations.length + es.length := by
  induction es with
  | nil =>
    intro acc g hg hk hv _
    exact ⟨g, by simpa using hg, hk, hv, by simp⟩
  | cons e es ih =>
    intro acc g hg hk hv hkey
    have hstep : (recStep acc e).groups
        = [{ g with durations := g.durations ++ [e.duration] }] := by
      rw [recStep_groups, hg, hkey e (by simp)]
      exact addToGroups_singleton_same k _ _ _ g hk
    obtain ⟨g', h1, h2, h3, h4⟩ :=
      ih (recStep acc e) { g with durations := g.durations ++ [e.duration] }
        hstep hk hv (fun x hx => hkey x (by simp [hx]))
    refine ⟨g', by simpa using h1, h2, h3, ?_⟩
    rw [h4]
    simp only [List.length_append, List.length_cons, List.length_nil]
    omega

/- Concrete fixtures used by the witnesses below. -/

/-- Builds a query event with the given text and timing boundaries. -/
def mkEv (txt : String) (s t : ℚ) : QueryEvent :=
  { sql_text := txt, parameters := "", started_at := s, ended_at := t }

/-- Five SELECTs of identical shape with different literal filters. -/
def ev5 : List QueryEvent :=
  [ mkEv "SELECT * FROM posts WHERE author_id = 1" 0 1,
    mkEv "SELECT * FROM posts WHERE author_id = 2" 0 2,
    mkEv "select * from posts where author_id = 3" 0 1,
    mkEv "SELECT * FROM posts WHERE author_id = 42" 0 3,
    mkEv "SELECT * FROM posts WHERE author_id = 5" 0 2 ]

/-- Two SELECT events with durations 1 and 2. -/
def evPair : List QueryEvent :=
  [ mkEv "SELECT name FROM authors" 0 1,
    mkEv "SELECT title FROM posts" 0 2 ]

/-- A group holding durations 3, 1, 2 in accumulation order. -/
def gMed : QueryGroup :=
  { key := "SELECT ?", verb := Verb.select, sql_text := "SELECT 3", durations := [3, 1, 2] }

/-- Claim C1: for every sequence of N recorded events whose sql texts normalize to
one shared key, the finalized Stats has unique_queries = 1 and the single
QueryGroup has query_count = N; when all events classify to one verb,
get_queries_by_type of that verb contains exactly that one group. -/
theorem single_key_stats (es : List QueryEvent) (k : String) (vrb : Verb)
    (hne : es ≠ [])
    (hval : ∀ e ∈ es, e.valid)
    (hkey : ∀ e ∈ es, normalize e.sql_text = k)
    (hverb : ∀ e ∈ es, classify e.sql_text = vrb) :
    recordAll emptyAcc es = Except.ok (es.foldl recStep emptyAcc) ∧
    ∃ g, (frozenStats es).groups = [g] ∧
      (frozenStats es).unique_queries = 1 ∧
      (frozenStats es).query_count = es.length ∧
      g.query_count = es.length ∧ g.verb = vrb ∧
      (frozenStats es).get_queries_by_type vrb = [g] := by
  refine ⟨recordAll_ok es emptyAcc rfl hval, ?_⟩
  obtain ⟨e, rest, rfl⟩ : ∃ e rest, es = e :: rest := by
    cases es with
    | nil => exact absurd rfl hne
    | cons e rest => exact ⟨e, rest, rfl⟩
  have hstep : (recStep emptyAcc e).groups
      = [{ key := k, verb := vrb, sql_text := e.sql_text, durations := [e.duration] }] := by
    rw [recStep_groups, hkey e (by simp), hverb e (by simp)]
    rfl
  obtain ⟨g, h1, h2, h3, h4⟩ :=
    foldl_single_key k vrb rest (recStep emptyAcc e) _ hstep rfl rfl
      (fun x hx => hkey x (by simp [hx]))
  have hgroups : (frozenStats (e :: rest)).groups = [g] := by
    show ((e :: rest).foldl recStep emptyAcc).groups = [g]
    rw [List.foldl_cons]
    exact h1
  have hcount : (frozenStats (e :: rest)).query_count = (e :: rest).length := by
    show ((e :: rest).foldl recStep emptyAcc).total_query_count = (e :: rest).length
    rw [foldl_recStep_count]
    simp [emptyAcc]
  refine ⟨g, hgroups, ?_, hcount, ?_, h3, ?_⟩
  · show (frozenStats (e :: rest)).groups.length = 1
    rw [hgroups]
    rfl
  · show g.durations.length = (e :: rest).length
    rw [h4]
    simp only [List.length_cons, List.length_nil]
    omega
  · show ((frozenStats (e :: rest)).groups.filter
        (fun x => x.verb == vrb)).insertionSort groupBefore = [g]
    rw [hgroups]
    simp [List.filter, h3, List.insertionSort, List.orderedInsert]

/-- Witness for C1: the five SELECTs of identical shape but different literal
filters yield query_count = 5, unique_queries = 1, and get_queries_by_type of
SELECT holding exactly one group with query_count = 5. -/
theorem single_key_stats_witness :
    (frozenStats ev5).unique_queries = 1 ∧
    (frozenStats ev5).query_count = 5 ∧
    ∃ g, (frozenStats ev5).get_queries_by_type Verb.select = [g] ∧
      g.query_count = 5 := by
  obtain ⟨-, g, -, h2, h3, h4, -, h6⟩ :=
    single_key_stats ev5 "SELECT * FROM POSTS WHERE AUTHOR_ID = ?" Verb.select
      (by decide) (by decide) (by decide) (by decide)
  exact ⟨h2, h3, g, h6, h4⟩

/-- Claim C2: after any sequence of record operations, the accumulated total_time
equals the sum of the durations of every individual recorded event, and also
equals the sum over the QueryGroups of their duration sums - independent of
how the events were grouped. -/
theorem total_time_spec (es : List QueryEvent) (hval : ∀ e ∈ es, e.valid) :
    recordAll emptyAcc es = Except.ok (es.foldl recStep emptyAcc) ∧
    (frozenStats es).total_time = (es.map QueryEvent.duration).sum ∧
    (frozenStats es).total_time
      = ((frozenStats es).groups.map (fun g => g.durations.sum)).sum := by
  refine ⟨recordAll_ok es emptyAcc rfl hval, ?_, ?_⟩
  · show (es.foldl recStep emptyAcc).total_time = _
    rw [foldl_recStep_total_time]
    show (0 : ℚ) + _ = _
    ring
  · show (es.foldl recStep emptyAcc).total_time
      = ((es.foldl recStep emptyAcc).groups.map (fun g => g.durations.sum)).sum
    rw [foldl_recStep_total_time, foldl_recStep_groups_sum]
    show (0 : ℚ) + _ = ([] : List ℚ).sum + _
    simp

/-- Witness for C2: two recorded events with durations 1 and 2 give
total_time 3, equal to the sum over the groups. -/
theorem total_time_spec_witness :
    (frozenStats evPair).total_time = 3 ∧
    (frozenStats evPair).total_time
      = ((frozenStats evPair).groups.map (fun g => g.durations.sum)).sum := by
  obtain ⟨-, h1, h2⟩ := total_time_spec evPair (by decide)
  refine ⟨h1.trans ?_, h2⟩
  show ((evPair.map QueryEvent.duration)).sum = 3
  simp [evPair, mkEv, QueryEvent.duration]
  norm_num

/-- Claim C3: for the finalized Stats of any recorded sequence, mean_time equals
total_time divided by query_count when query_count is positive, and 0 when
query_count is 0, with no division by zero on an empty accumulator. -/
theorem mean_time_spec (es : List QueryEvent) (hval : ∀ e ∈ es, e.valid) :
    recordAll emptyAcc es = Except.ok (es.foldl recStep emptyAcc) ∧
    (frozenStats es).query_count = es.length ∧
    ((frozenStats es).query_count = 0 → (frozenStats es).mean_time = 0) ∧
    ((frozenStats es).query_count ≠ 0 →
      (frozenStats es).mean_time
        = (frozenStats es).total_time / ((frozenStats es).query_count : ℚ)) := by
  refine ⟨recordAll_ok es emptyAcc rfl hval, ?_, ?_, ?_⟩
  · show (es.foldl recStep emptyAcc).total_query_count = es.length
    rw [foldl_recStep_count]
    simp [emptyAcc]
  · intro h
    simp [Stats.mean_time, h]
  · intro h
    simp [Stats.mean_time, h]

/-- Witness for C3: two events of durations 1 and 2 have mean_time equal to
total_time divided by 2. -/
theorem mean_time_spec_witness :
    (frozenStats evPair).mean_time = (frozenStats evPair).total_time / (2 : ℚ) := by
  obtain ⟨-, hc, -, hm⟩ := mean_time_spec evPair (by decide)
  have h2 : (frozenStats evPair).query_count = 2 := hc
  rw [hm (by rw [h2]; decide), h2]
  norm_num

/-- Claim C4: for every non-empty duration sequence of a QueryGroup, median_time is
the middle element of the sorted copy for odd length, the average of the two
middle elements of the sorted copy for even length, and is a function of the
stored durations invariant under accumulation order (recomputed at read
time). -/
theorem median_time_spec (g : QueryGroup) (hne : g.durations ≠ []) :
    (g.durations.length % 2 = 1 →
      g.median_time = (sortQ g.durations).getD (g.durations.length / 2) 0) ∧
    (g.durations.length % 2 = 0 →
      g.median_time
        = ((sortQ g.durations).getD (g.durations.length / 2 - 1) 0
            + (sortQ g.durations).getD (g.durations.length / 2) 0) / 2) ∧
    (∀ l : List ℚ, g.durations.Perm l → g.median_time = medianList l) := by
  have hlen : g.durations.length ≠ 0 := by simpa using hne
  refine ⟨?_, ?_, ?_⟩
  · intro hodd
    simp [QueryGroup.median_time, medianList, hlen, hodd]
  · intro heven
    have hno : g.durations.length % 2 ≠ 1 := by omega
    simp [QueryGroup.median_time, medianList, hlen, hno]
  · intro l hp
    exact medianList_eq_of_perm hp

/-- Witness for C4: a group with durations 3, 1, 2 (accumulation order) has
median_time 2, and the median agrees with the one computed from the sorted
sequence 1, 2, 3. -/
theorem median_time_spec_witness :
    gMed.median_time = 2 ∧ gMed.median_time = medianList [1, 2, 3] := by
  obtain ⟨hodd, -, hperm⟩ := median_time_spec gMed (by decide)
  refine ⟨(hodd (by decide)).trans ?_, hperm [1, 2, 3] (by decide)⟩
  decide

/-- First of two tied SELECT groups used by the C5 witness. -/
def gTieA : QueryGroup :=
  { key := "SELECT A FROM T", verb := Verb.select, sql_text := "select a from t",
    durations := [1] }

/-- Second of two tied SELECT groups used by the C5 witness. -/
def gTieB : QueryGroup :=
  { key := "SELECT B FROM T", verb := Verb.select, sql_text := "select b from t",
    durations := [1] }

/-- Stats whose two groups are fully tied, used by the C5 witness. -/
def stTie : Stats :=
  { groups := [gTieA, gTieB], query_count := 2, total_time := 2 }

/-- Claim C5: get_queries_by_type returns exactly the groups whose classified verb
matches (same multiset as the filter), sorted so that consecutive groups
descend by total_time with ties by descending query_count, and groups tied on
both keys keep the insertion order of their first occurrence (stability),
making the ordering deterministic. -/
theorem get_queries_by_type_spec (s : Stats) (v : Verb) :
    (s.get_queries_by_type v).Perm (s.groups.filter (fun g => g.verb == v)) ∧
    List.Sorted groupBefore (s.get_queries_by_type v) ∧
    (∀ g ∈ s.get_queries_by_type v, g.verb = v) ∧
    (∀ a b : QueryGroup, a.total_time = b.total_time → a.query_count = b.query_count →
      List.Sublist [a, b] (s.groups.filter (fun g => g.verb == v)) →
      List.Sublist [a, b] (s.get_queries_by_type v)) := by
  refine ⟨List.perm_insertionSort _ _, List.sorted_insertionSort _ _, ?_, ?_⟩
  · intro g hg
    have hmem : g ∈ s.groups.filter (fun g => g.verb == v) :=
      (List.perm_insertionSort groupBefore _).mem_iff.mp hg
    simpa using List.of_mem_filter hmem
  · intro a b h1 h2 hsub
    exact List.pair_sublist_insertionSort (Or.inr ⟨h1, le_of_eq h2.symm⟩) hsub

/-- Witness for C5: two SELECT groups fully tied on total_time and
query_count come out in insertion order, and every returned group is a
SELECT group. -/
theorem get_queries_by_type_spec_witness :
    List.Sublist [gTieA, gTieB] (stTie.get_queries_by_type Verb.select) ∧
    ∀ g ∈ stTie.get_queries_by_type Verb.select, g.verb = Verb.select := by
  obtain ⟨-, -, hmem, hstab⟩ := get_queries_by_type_spec stTie Verb.select
  exact ⟨hstab gTieA gTieB rfl rfl (by decide), hmem⟩

/-- Group used by the C6 witness. -/
def gOne : QueryGroup :=
  { key := "UPDATE POSTS SET TITLE = ?", verb := Verb.update,
    sql_text := "UPDATE posts SET title = 9", durations := [4] }

/-- Stats with exactly one recorded group, used by the C6 witness. -/
def stOne : Stats :=
  { groups := [gOne], query_count := 1, total_time := 4 }

/-- Claim C6: get_slowest_query returns none exactly when no queries were recorded
(empty group list), and otherwise some group of maximal total_time across all
verbs; in particular the unique group when exactly one group was recorded. -/
theorem get_slowest_query_spec (s : Stats) :
    (s.groups = [] → s.get_slowest_query = none) ∧
    (s.groups ≠ [] → ∃ g, s.get_slowest_query = some g) ∧
    (∀ g, s.get_slowest_query = some g →
      g ∈ s.groups ∧ ∀ x ∈ s.groups, x.total_time ≤ g.total_time) ∧
    (∀ g, s.groups = [g] → s.get_slowest_query = some g) := by
  refine ⟨?_, ?_, ?_, ?_⟩
  · intro h
    simp [Stats.get_slowest_query, h]
  · intro h
    cases hg : s.groups with
    | nil => exact absurd hg h
    | cons g gs => exact ⟨slowestAux g gs, by simp [Stats.get_slowest_query, hg]⟩
  · intro g hgs
    cases hg : s.groups with
    | nil => simp [Stats.get_slowest_query, hg] at hgs
    | cons g0 gs =>
      simp only [Stats.get_slowest_query, hg, Option.some.injEq] at hgs
      exact ⟨hgs ▸ slowestAux_mem g0 gs, fun x hx => hgs ▸ slowestAux_le g0 gs x hx⟩
  · intro g hg
    simp [Stats.get_slowest_query, hg, slowestAux]

/-- Witness for C6: the empty finalized accumulator has no slowest query, and
with exactly one recorded group that group is returned. -/
theorem get_slowest_query_spec_witness :
    (frozenStats []).get_slowest_query = none ∧
    stOne.get_slowest_query = some gOne := by
  obtain ⟨h1, -, -, -⟩ := get_slowest_query_spec (frozenStats [])
  obtain ⟨-, -, -, h4⟩ := get_slowest_query_spec stOne
  exact ⟨h1 rfl, h4 gOne rfl⟩

/-- Events recorded before the scope of the C7 witness closes. -/
def ev7a : List QueryEvent :=
  [ mkEv "SELECT id FROM authors" 0 1,
    mkEv "SELECT id FROM posts" 0 2 ]

/-- Events the workload executes after the scope of the C7 witness closed. -/
def ev7b : List QueryEvent :=
  [ mkEv "DELETE FROM posts WHERE id = 9" 2 5 ]

/-- Claim C7: after freeze, every record call on the closed accumulator fails with
AccumulatorClosed, and the frozen Stats of a closed scope is exactly the
snapshot of the events recorded before close - events delivered afterwards
never appear in it. -/
theorem freeze_spec (acc : StatisticsAccumulator) (e : QueryEvent) (sid : String)
    (es1 es2 : List QueryEvent) (hval : ∀ x ∈ es1, x.valid) :
    (acc.freeze).1.record e = Except.error ProfError.AccumulatorClosed ∧
    closeThenContinue sid es1 es2 = Except.ok (frozenStats es1, []) := by
  constructor
  · rfl
  · simp only [closeThenContinue, activate_nil,
      deliverAll_single sid emptyAcc es1 rfl hval, deactivate_single,
      deliverAll_nil_reg]
    rfl

/-- Witness for C7: with two statements before close and one after, record on
the closed accumulator fails and the frozen Stats covers only the first two
statements. -/
theorem freeze_spec_witness :
    (emptyAcc.freeze).1.record (mkEv "SELECT 1" 0 1)
      = Except.error ProfError.AccumulatorClosed ∧
    closeThenContinue "A" ev7a ev7b = Except.ok (frozenStats ev7a, []) ∧
    (frozenStats ev7a).query_count = 2 := by
  obtain ⟨h1, h2⟩ := freeze_spec emptyAcc (mkEv "SELECT 1" 0 1) "A" ev7a ev7b (by decide)
  exact ⟨h1, h2, by decide⟩

/-- Registry with two simultaneously open scopes, used by the C8 witness. -/
def regTwo : ScopeRegistry :=
  [("outer", emptyAcc), ("inner", emptyAcc)]

/-- Event delivered while both scopes of the C8 witness are active. -/
def ev8 : QueryEvent :=
  mkEv "SELECT * FROM authors" 0 1

/-- Claim C8: a QueryEvent is delivered to every currently active accumulator, not
only the innermost: delivery maps every open accumulator through one record
step, and each record step increments that accumulator's query count by 1. -/
theorem deliver_fan_out (reg : ScopeRegistry) (e : QueryEvent) (hval : e.valid)
    (hopen : ∀ p ∈ reg, p.2.closed = false) :
    deliver reg e = Except.ok (reg.map (fun p => (p.1, recStep p.2 e))) ∧
    ∀ p ∈ reg, (recStep p.2 e).total_query_count = p.2.total_query_count + 1 :=
  ⟨deliver_fan reg e hval hopen, fun _ _ => rfl⟩

/-- Witness for C8: with scopes outer and inner both open, one event is
recorded into both accumulators and each query count rises by 1. -/
theorem deliver_fan_out_witness :
    deliver regTwo ev8
      = Except.ok [("outer", recStep emptyAcc ev8), ("inner", recStep emptyAcc ev8)] ∧
    (recStep emptyAcc ev8).total_query_count = 1 := by
  obtain ⟨h1, h2⟩ := deliver_fan_out regTwo ev8 (by decide) (by decide)
  exact ⟨h1, h2 ("outer", emptyAcc) (by simp [regTwo])⟩

/-- The two statements executed before the error in the C9 witness. -/
def ev9 : List QueryEvent :=
  [ mkEv "SELECT * FROM posts" 0 1,
    mkEv "SELECT * FROM authors WHERE id = 1" 1 2 ]

/-- Claim C9: when the profiled block raises after some statements executed, exit
still runs - the scope is removed from the registry, the Stats reflects
exactly the statements recorded before the error, and the block's error comes
back unchanged after cleanup. -/
theorem run_block_spec (sid : String) (es : List QueryEvent) (msg : Option String)
    (hval : ∀ e ∈ es, e.valid) :
    runProfiledBlock sid es msg = Except.ok ([], frozenStats es, msg) := by
  simp only [runProfiledBlock, activate_nil,
    deliverAll_single sid emptyAcc es rfl hval, deactivate_single]
  rfl

/-- Witness for C9: a block raising boom after 2 statements still closes the
scope, the Stats shows exactly those 2 statements, and boom propagates. -/
theorem run_block_spec_witness :
    runProfiledBlock "S" ev9 (some "boom")
      = Except.ok ([], frozenStats ev9, some "boom") ∧
    (frozenStats ev9).query_count = 2 := by
  exact ⟨run_block_spec "S" ev9 (some "boom") (by decide), by decide⟩

/-- The single query of the C10 witness. -/
def ev10 : List QueryEvent :=
  [ mkEv "SELECT name FROM authors LIMIT 10" 0 1 ]

/-- Claim C10: the object the context manager hands to the caller is the very
finalized Stats of the accumulator at close time - the run of the
enter/deliver/exit protocol returns exactly frozenStats of the recorded
events, whose read operations expose the frozen results (query_count equal to
the number of recorded events, total_time equal to the summed durations). -/
theorem sqltap_profiler_spec (label : String) (es : List QueryEvent)
    (hval : ∀ e ∈ es, e.valid) :
    sqltap_profiler label es = Except.ok (frozenStats es) ∧
    (frozenStats es).query_count = es.length ∧
    (frozenStats es).total_time = (es.map QueryEvent.duration).sum := by
  refine ⟨?_, ?_, ?_⟩
  · simp only [sqltap_profiler, activate_nil,
      deliverAll_single label emptyAcc es rfl hval, deactivate_single]
    rfl
  · show (es.foldl recStep emptyAcc).total_query_count = es.length
    rw [foldl_recStep_count]
    simp [emptyAcc]
  · show (es.foldl recStep emptyAcc).total_time = _
    rw [foldl_recStep_total_time]
    show (0 : ℚ) + _ = _
    ring

/-- Witness for C10: profiling one query hands back the frozen Stats object
itself, already showing query_count 1. -/
theorem sqltap_profiler_spec_witness :
    sqltap_profiler "summary-report" ev10 = Except.ok (frozenStats ev10) ∧
    (frozenStats ev10).query_count = 1 := by
  obtain ⟨h1, -, -⟩ := sqltap_profiler_spec "summary-report" ev10 (by decide)
  exact ⟨h1, by decide⟩

end Sqltap
